import Mathlib

/-!
Shallow embedding of the deco-sites/bundler repository (src/main.ts and the
entrypoint-existence check of src/bundler.ts).

The bundler runs on a POSIX host; Node's path functions (path.resolve,
path.relative, path.dirname) depend on the ambient process working
directory.  The working directory is modelled explicitly as a list of path
segments (`cwd`), so that every theorem states exactly for which working
directories it holds.
-/

/-- Split a path string at slashes, as JS "s.split('/')" does.  Accumulates
the current segment in reverse. -/
def splitCharsAux (cur : List Char) : List Char → List String
  | [] => [String.mk cur.reverse]
  | c :: rest =>
    if c = '/' then String.mk cur.reverse :: splitCharsAux [] rest
    else splitCharsAux (c :: cur) rest

/-- Split a path string into its slash-separated segments. -/
def splitPath (s : String) : List String := splitCharsAux [] s.toList

/-- Whether a path string is absolute (starts with a slash), as Node's
posix path functions test. -/
def isAbsPath (s : String) : Bool :=
  match s.toList with
  | '/' :: _ => true
  | _ => false

/-- The replace with ABS_PATH_REGEXP from src/main.ts line 64:
the regular expression matches a leading "./" or a leading "/", and
String.prototype.replace with a non-global regexp removes the first
(here: the only possible) match. -/
def stripAbs (s : String) : String :=
  match s.toList with
  | '.' :: '/' :: rest => String.mk rest
  | '/' :: rest => String.mk rest
  | _ => s

/-- One step of POSIX path normalization over segments of an absolute
path: empty segments and "." are dropped, ".." removes the previous
segment (and is dropped at the root, as path.resolve does for absolute
paths). -/
def normStep (acc : List String) (seg : String) : List String :=
  if seg = "" ∨ seg = "." then acc
  else if seg = ".." then acc.dropLast
  else acc ++ [seg]

/-- Normalize the segments of an absolute path (POSIX). -/
def normSegsAbs (segs : List String) : List String := segs.foldl normStep []

/-- Node's path.resolve(base, p) where `base` is an already-resolved
absolute path given as segments: an absolute `p` ignores the base,
otherwise `p` is appended to the base; the result is normalized. -/
def resolveAbs (base : List String) (p : String) : List String :=
  if isAbsPath p then normSegsAbs (splitPath p) else normSegsAbs (base ++ splitPath p)

/-- Length of the longest common segment prefix, used by path.relative. -/
def commonPrefixLen : List String → List String → Nat
  | a :: as, b :: bs => if a = b then 1 + commonPrefixLen as bs else 0
  | _, _ => 0

/-- Node's path.relative(fromSegs, toSegs) on resolved absolute paths,
returned as segments: one ".." per remaining `from` segment, then the
remaining `to` segments. -/
def relativeSegs (fromSegs toSegs : List String) : List String :=
  List.replicate (fromSegs.length - commonPrefixLen fromSegs toSegs) ".."
    ++ toSegs.drop (commonPrefixLen fromSegs toSegs)

/-- Join segments with slashes (the textual form path.relative returns). -/
def joinSegs (l : List String) : String := String.intercalate "/" l

/-- resolveImportPath from src/main.ts lines 46-62.  `cwd` is the process
working directory (what path.resolve("./") expands to), as segments.
With an empty importer the import path is resolved from the working
directory; otherwise from the directory of the resolved importer
(path.dirname drops the last segment).  The result is the path relative
to the working directory, prefixed with "./". -/
def resolveImportPath (cwd : List String) (importPath importerPath : String) : String :=
  if importerPath = "" then
    "./" ++ joinSegs (relativeSegs cwd (resolveAbs cwd importPath))
  else
    "./" ++ joinSegs (relativeSegs cwd
      (resolveAbs (resolveAbs cwd importerPath).dropLast importPath))

/-- Assignment `virtualFiles[k] = v` on a JS object modelled as an
association list with unique keys: an existing binding for `k` is
overwritten in place, otherwise the binding is appended. -/
def insertStore : List (String × String) → String → String → List (String × String)
  | [], k, v => [(k, v)]
  | (k0, v0) :: rest, k, v =>
    if k0 == k then (k, v) :: rest else (k0, v0) :: insertStore rest k v

/-- The virtualFiles construction of src/main.ts lines 80-83: each key of
the request's files map is stripped of a leading "./" or "/" and the
content is assigned under the stripped key, in enumeration order. -/
def mkVirtualFiles (files : List (String × String)) : List (String × String) :=
  files.foldl (fun acc kv => insertStore acc (stripAbs kv.1) kv.2) []

/-- The list of platform built-in module names.  Modelled from the host
runtime: this is `builtinModules` of node:module as exposed by the Deno
runtime (the bare names, without the "node:" scheme), imported in
src/main.ts line 13 and interpolated into NODEJS_MODULES_RE at line 66. -/
def builtinModules : List String :=
  ["assert", "assert/strict", "async_hooks", "buffer", "child_process",
   "cluster", "console", "constants", "crypto", "dgram",
   "diagnostics_channel", "dns", "dns/promises", "domain", "events", "fs",
   "fs/promises", "http", "http2", "https", "inspector",
   "inspector/promises", "module", "net", "os", "path", "path/posix",
   "path/win32", "perf_hooks", "process", "punycode", "querystring",
   "readline", "readline/promises", "repl", "stream", "stream/consumers",
   "stream/promises", "stream/web", "string_decoder", "sys", "timers",
   "timers/promises", "tls", "trace_events", "tty", "url", "util",
   "util/types", "v8", "vm", "wasi", "worker_threads", "zlib"]

/-- Drop a literal "node:" head from a character list, when present. -/
def nodeSchemeTail : List Char → Option (List Char)
  | 'n' :: 'o' :: 'd' :: 'e' :: ':' :: rest => some rest
  | _ => none

/-- Test from NODEJS_MODULES_RE (src/main.ts line 66): the whole specifier
is an optional "node:" scheme followed by exactly one built-in name. -/
def nodejsModulesMatch (s : String) : Bool :=
  builtinModules.contains s ||
    (match nodeSchemeTail s.toList with
     | some rest => builtinModules.contains (String.mk rest)
     | none => false)

/-- JS String.prototype.replace("node:", ""): remove the first occurrence
of "node:" scanning left to right, keep the string unchanged when there
is none (src/main.ts line 163). -/
def replaceFirstNodeAux : List Char → List Char
  | 'n' :: 'o' :: 'd' :: 'e' :: ':' :: rest => rest
  | c :: rest => c :: replaceFirstNodeAux rest
  | [] => []

/-- The specifier with its first "node:" occurrence removed. -/
def stripNodeScheme (s : String) : String := String.mk (replaceFirstNodeAux s.toList)

/-- Resolution kinds esbuild passes to onResolve callbacks; the shim only
acts on require calls. -/
inductive ImportKind where
  | entryPoint
  | importStatement
  | requireCall
  | dynamicImport
  | requireResolve
  | importRule
  | urlToken
  deriving DecidableEq, Repr

/-- Value returned by an onResolve hook when it takes an opinion: a path
together with the namespace the path is placed in. -/
structure ResolveResult where
  path : String
  nspace : String
  deriving DecidableEq, Repr

/-- Loaders used by the onLoad hooks of src/main.ts. -/
inductive Loader where
  | js
  | ts
  deriving DecidableEq, Repr

/-- Value returned by an onLoad hook: generated contents plus a loader. -/
structure LoadResult where
  contents : String
  loader : Loader
  deriving DecidableEq, Repr

/-- Namespace constant of src/main.ts line 67. -/
def REQUIRED_NODE_BUILT_IN_NAMESPACE : String := "node-built-in-modules"

/-- onResolve hook of the handle-require-calls-to-nodejs-builtins plugin
(src/main.ts lines 150-157).  esbuild invokes the callback only when the
specifier matches the hook's filter NODEJS_MODULES_RE; the callback
answers only for require calls and returns no opinion otherwise. -/
def shimOnResolve (specifier : String) (kind : ImportKind) : Option ResolveResult :=
  if nodejsModulesMatch specifier then
    if kind = ImportKind.requireCall then
      some ⟨specifier, REQUIRED_NODE_BUILT_IN_NAMESPACE⟩
    else none
  else none

/-- onLoad hook of the handle-require-calls-to-nodejs-builtins plugin
(src/main.ts lines 158-168): generated interop source importing the
built-in under its node:-scheme ESM form, always with the js loader. -/
def shimOnLoad (p : String) : LoadResult :=
  ⟨"import libDefault from 'node:" ++ stripNodeScheme p
      ++ "'; module.exports = libDefault;",
   Loader.js⟩

/-- onResolve hook of the virtual-filesystem plugin (src/main.ts lines
118-130): canonicalize the specifier against the importer, strip the
leading "./" or "/", and serve from the store when the stored content is
truthy (JS: the empty string is falsy, a missing key is undefined and
falsy); otherwise return no opinion. -/
def vfsOnResolve (virtualFiles : List (String × String)) (cwd : List String)
    (specifier importer : String) : Option ResolveResult :=
  let key := stripAbs (resolveImportPath cwd specifier importer)
  match List.lookup key virtualFiles with
  | some content => if content = "" then none else some ⟨key, "virtual"⟩
  | none => none

/-- Outcome of the composed resolver for one specifier. -/
inductive Resolution where
  | virtual (path : String)
  | nodeShim (path : String)
  | defaultResolve
  deriving DecidableEq, Repr

/-- The composed resolver of build (src/main.ts lines 113-174): esbuild
tries resolve hooks in plugin registration order — the virtual-filesystem
hook first, then the built-in shim hook, and falls through to the
default/import-map-aware deno resolver when no hook takes an opinion. -/
def composedResolve (virtualFiles : List (String × String)) (cwd : List String)
    (specifier importer : String) (kind : ImportKind) : Resolution :=
  match vfsOnResolve virtualFiles cwd specifier importer with
  | some r => Resolution.virtual r.path
  | none =>
    match shimOnResolve specifier kind with
    | some r => Resolution.nodeShim r.path
    | none => Resolution.defaultResolve

/-- The base64 alphabet, in index order. -/
def base64Alphabet : List Char :=
  "ABCDEFGHIJKLMNOPQRSTUVWXYZabcdefghijklmnopqrstuvwxyz0123456789+/".toList

/-- Character for a 6-bit value. -/
def b64char (n : Nat) : Char := base64Alphabet.getD n 'A'

/-- Index of a base64 character in the alphabet. -/
def b64val (c : Char) : Nat := base64Alphabet.findIdx (fun d => d = c)

/-- Base64-encode a byte sequence, with "=" padding, as btoa does. -/
def bytesToB64 : List Nat → List Char
  | [] => []
  | [a] => [b64char (a / 4), b64char (a % 4 * 16), '=', '=']
  | [a, b] =>
    [b64char (a / 4), b64char (a % 4 * 16 + b / 16), b64char (b % 16 * 4), '=']
  | a :: b :: c :: rest =>
    b64char (a / 4) :: b64char (a % 4 * 16 + b / 16)
      :: b64char (b % 16 * 4 + c / 64) :: b64char (c % 64) :: bytesToB64 rest

/-- Base64-decode a character sequence produced by bytesToB64, as atob
does on well-formed input. -/
def b64ToBytes : List Char → List Nat
  | c1 :: c2 :: c3 :: c4 :: rest =>
    if c3 = '=' then [b64val c1 * 4 + b64val c2 / 16]
    else if c4 = '=' then
      [b64val c1 * 4 + b64val c2 / 16, b64val c2 % 16 * 16 + b64val c3 / 4]
    else
      (b64val c1 * 4 + b64val c2 / 16)
        :: (b64val c2 % 16 * 16 + b64val c3 / 4)
        :: (b64val c3 % 4 * 64 + b64val c4) :: b64ToBytes rest
  | _ => []

/-- Recursion principle following the three-byte chunking of bytesToB64. -/
def chunkRec (P : List Nat → Prop) (h0 : P []) (h1 : ∀ a, P [a])
    (h2 : ∀ a b, P [a, b]) (h3 : ∀ a b c l, P l → P (a :: b :: c :: l)) :
    ∀ l, P l
  | [] => h0
  | [a] => h1 a
  | [a, b] => h2 a b
  | a :: b :: c :: l => h3 a b c l (chunkRec P h0 h1 h2 h3 l)

/-- The btoa host function (src/main.ts line 186): base64 of the string's
code units; throws (modelled as none) when a code unit is above 255. -/
def btoa (s : String) : Option String :=
  if s.toList.all (fun c => c.toNat < 256) then
    some (String.mk (bytesToB64 (s.toList.map Char.toNat)))
  else none

/-- Syntactic base64 validity: only alphabet characters and padding, and
a length that is a multiple of four. -/
def isValidB64 (s : String) : Bool :=
  s.toList.all (fun c => base64Alphabet.contains c || c = '=') && s.length % 4 == 0

/-- An esbuild diagnostic; only the text field is consumed by build
(src/main.ts line 179). -/
structure Diagnostic where
  text : String
  deriving DecidableEq, Repr

/-- An esbuild in-memory output artifact; only the text is consumed. -/
structure OutputFile where
  text : String
  deriving DecidableEq, Repr

/-- The fields of the awaited esbuild.build result that build consumes. -/
structure EngineResult where
  errors : List Diagnostic
  outputFiles : List OutputFile
  deriving DecidableEq, Repr

/-- A JS thrown value: either an Error carrying a message, or any other
value together with its String(...) rendering. -/
inductive Thrown where
  | err (message : String)
  | val (stringRep : String)
  deriving DecidableEq, Repr

/-- The message extraction of the catch block (src/main.ts line 188):
an Error keeps its message, any other thrown value is rendered with
String(...) and wrapped in an Error first. -/
def toErrorMessage : Thrown → String
  | Thrown.err m => m
  | Thrown.val s => s

/-- What the awaited engine call does: either it throws, or it completes
with a result object. -/
inductive EngineOutcome where
  | thrown (t : Thrown)
  | completed (r : EngineResult)
  deriving DecidableEq, Repr

/-- Message of the TypeError the host raises for
result.outputFiles[0].text when outputFiles is empty. -/
def emptyOutputMessage : String := "Cannot read properties of undefined (reading 'text')"

/-- Message of the DOMException btoa raises on a character outside the
Latin-1 range.  Modelled from the host; its exact text is irrelevant to
every claim. -/
def btoaRangeMessage : String :=
  "The string to be encoded contains characters outside of the Latin1 range."

/-- The BuildResult record returned on success (src/main.ts lines 31-37). -/
structure BuildResult where
  base64 : String
  deriving DecidableEq, Repr

/-- Body of the try block after the engine completes (src/main.ts lines
177-186): aggregate error diagnostics into one thrown Error, otherwise
take the first output artifact's text and base64-encode it. -/
def postEngine (r : EngineResult) : Except Thrown BuildResult :=
  if r.errors.length > 0 then
    Except.error (Thrown.err
      ("Build failed: " ++ String.intercalate "\n" (r.errors.map Diagnostic.text)))
  else
    match r.outputFiles with
    | [] => Except.error (Thrown.err emptyOutputMessage)
    | f :: _ =>
      match btoa f.text with
      | some b => Except.ok ⟨b⟩
      | none => Except.error (Thrown.err btoaRangeMessage)

/-- The build orchestration of src/main.ts lines 96-191, as a function of
the engine outcome: any thrown value — from the engine itself or from the
try body — is caught and normalized to an Error whose message carries the
constant "Build failed: " tag followed by the original message. -/
def build (outcome : EngineOutcome) : Except String BuildResult :=
  match outcome with
  | EngineOutcome.thrown t => Except.error ("Build failed: " ++ toErrorMessage t)
  | EngineOutcome.completed r =>
    match postEngine r with
    | Except.error t => Except.error ("Build failed: " ++ toErrorMessage t)
    | Except.ok b => Except.ok b

/-- Path constant of src/bundler.ts line 28. -/
def NPMRC_PATH : String := ".npmrc"

/-- Entrypoint defaulting of src/bundler.ts line 50 and src/main.ts line
98: an absent entrypoint defaults to "index.ts". -/
def defaultEntrypoint (entrypoint : Option String) : String := entrypoint.getD "index.ts"

/-- One step of normalizing a path relative to the build directory, as
jsr:@std/path join does: empty and "." segments vanish, ".." pops a
segment or, at the top, counts one level above the build directory. -/
def normRelStep (acc : Nat × List String) (seg : String) : Nat × List String :=
  if seg = "" ∨ seg = "." then acc
  else if seg = ".." then
    match acc.2 with
    | [] => (acc.1 + 1, [])
    | _ => (acc.1, acc.2.dropLast)
  else (acc.1, acc.2 ++ [seg])

/-- Where join(buildPath, s) lands, expressed relative to buildPath: a
number of levels above it plus segments below that. -/
def normRel (s : String) : Nat × List String := (splitPath s).foldl normRelStep (0, [])

/-- The set of paths Deno.writeTextFile has written below the build
directory when the entrypoint check runs (src/bundler.ts lines 88-102):
every request file under its joined path, plus the always-written .npmrc. -/
def writtenPaths (files : List (String × String)) : List (Nat × List String) :=
  files.map (fun kv => normRel kv.1) ++ [normRel NPMRC_PATH]

/-- Whether Deno.stat(join(buildPath, e)) succeeds (src/bundler.ts lines
110-112).  The stat succeeds on three kinds of locations.  First, a
written file or a directory created for one: the segment prefixes of
written paths, since every ancestor directory of a written file was
created.  Second, the pre-existing ancestors of the build directory
itself: join normalizes a leading ".." to buildDir (created at
src/bundler.ts line 62), two levels up to the temp-or-cwd base directory,
and further up to the filesystem root, all of which exist — these are the
locations strictly above the build directory with no segments below.
Third, any other pre-existing host location above the build directory
(sibling build ids, and outside production arbitrary paths under the
process cwd); these depend on host state and are modelled by the
environment parameter hostPaths, all of whose members lie at least one
level above the build directory. -/
def entryStatHit (hostPaths : List (Nat × List String))
    (files : List (String × String)) (e : String) : Bool :=
  (writtenPaths files).any
    (fun k => (normRel e).1 == k.1 && (normRel e).2.isPrefixOf k.2)
  || (decide (1 ≤ (normRel e).1) && (normRel e).2.isEmpty)
  || hostPaths.contains (normRel e)

/-- The entrypoint existence check of src/bundler.ts lines 104-122: when
the stat fails, the build throws the entrypoint-not-found Error (which the
surrounding catch then tags with "Build failed: ").  hostPaths is the
pre-existing host state above the build directory consulted by the stat. -/
def checkEntrypoint (hostPaths : List (Nat × List String))
    (files : List (String × String)) (entrypoint : Option String) :
    Except String Unit :=
  let e := defaultEntrypoint entrypoint
  if entryStatHit hostPaths files e then Except.ok ()
  else Except.error ("Entrypoint file '" ++ e ++ "' not found in provided files")

theorem strToList_append (a b : String) : (a ++ b).toList = a.toList ++ b.toList := rfl

theorem splitPath_dotSlash (name : String) :
    splitPath ("./" ++ name) = "." :: splitPath name := by
  show splitCharsAux [] ('.' :: '/' :: name.toList) = "." :: splitCharsAux [] name.toList
  simp [splitCharsAux]

theorem splitPath_slash (name : String) :
    splitPath ("/" ++ name) = "" :: splitPath name := by
  show splitCharsAux [] ('/' :: name.toList) = "" :: splitCharsAux [] name.toList
  simp [splitCharsAux]

theorem isAbsPath_dotSlash (name : String) : isAbsPath ("./" ++ name) = false := rfl

theorem isAbsPath_slash (name : String) : isAbsPath ("/" ++ name) = true := rfl

theorem normSegsAbs_cons_dot (base : List String) (l : List String) :
    normSegsAbs (base ++ "." :: l) = normSegsAbs (base ++ l) := by
  simp [normSegsAbs, List.foldl_append, List.foldl_cons, normStep]

theorem normSegsAbs_cons_empty (l : List String) :
    normSegsAbs ("" :: l) = normSegsAbs l := by
  simp [normSegsAbs, List.foldl_cons, normStep]

theorem resolveAbs_dotSlash (base : List String) (name : String)
    (h : isAbsPath name = false) :
    resolveAbs base ("./" ++ name) = resolveAbs base name := by
  simp only [resolveAbs, isAbsPath_dotSlash, h, Bool.false_eq_true, if_false,
    splitPath_dotSlash]
  exact normSegsAbs_cons_dot base (splitPath name)

theorem resolveAbs_root_slash (name : String) (h : isAbsPath name = false) :
    resolveAbs [] ("/" ++ name) = resolveAbs [] name := by
  simp only [resolveAbs, isAbsPath_slash, h, Bool.false_eq_true, if_true, if_false,
    splitPath_slash, List.nil_append]
  exact normSegsAbs_cons_empty (splitPath name)

/-- C2 counterexample: the claim says the three literal forms "./a.ts",
"/a.ts" and "a.ts" always canonicalize to the identical "./"-prefixed
string under resolveImportPath with empty importer.  path.resolve and
path.relative depend on the process working directory: with working
directory "/app", the form "/a.ts" canonicalizes to "./../a.ts" while
"./a.ts" and "a.ts" canonicalize to "./a.ts", so the three forms do not
agree. -/
theorem slash_form_canonicalization_differs :
    resolveImportPath ["app"] "./a.ts" "" = "./a.ts" ∧
    resolveImportPath ["app"] "a.ts" "" = "./a.ts" ∧
    resolveImportPath ["app"] "/a.ts" "" = "./../a.ts" ∧
    resolveImportPath ["app"] "/a.ts" "" ≠ resolveImportPath ["app"] "a.ts" "" ∧
    stripAbs (resolveImportPath ["app"] "/a.ts" "") ≠
      stripAbs (resolveImportPath ["app"] "a.ts" "") := by
  decide

/-- C2 amended: with empty importer the literal forms "./name" and "name"
canonicalize to the identical "./"-prefixed string (and hence to the same
stripped store key) for every process working directory, and the form
"/name" additionally agrees exactly in the root working directory. -/
theorem dot_and_bare_forms_canonicalize_equal (cwd : List String) (name : String)
    (h : isAbsPath name = false) :
    resolveImportPath cwd ("./" ++ name) "" = resolveImportPath cwd name "" ∧
    resolveImportPath [] ("/" ++ name) "" = resolveImportPath [] name "" ∧
    stripAbs (resolveImportPath cwd ("./" ++ name) "") =
      stripAbs (resolveImportPath cwd name "") := by
  refine ⟨?_, ?_, ?_⟩
  · simp [resolveImportPath, resolveAbs_dotSlash cwd name h]
  · simp [resolveImportPath, resolveAbs_root_slash name h]
  · simp [resolveImportPath, resolveAbs_dotSlash cwd name h]

/-- Witness for the C2 amended theorem at cwd = ["app"], name = "a.ts". -/
theorem dot_and_bare_forms_canonicalize_equal_witness :
    isAbsPath "a.ts" = false ∧
    (resolveImportPath ["app"] ("./" ++ "a.ts") "" = resolveImportPath ["app"] "a.ts" "" ∧
     resolveImportPath [] ("/" ++ "a.ts") "" = resolveImportPath [] "a.ts" "" ∧
     stripAbs (resolveImportPath ["app"] ("./" ++ "a.ts") "") =
       stripAbs (resolveImportPath ["app"] "a.ts" "")) :=
  ⟨by decide, dot_and_bare_forms_canonicalize_equal ["app"] "a.ts" (by decide)⟩

/-- C1 counterexample: the claim says the built-in shim's resolve hook is
registered first and wins for require-style built-in references even when
the specifier also hits the Virtual File Store.  In src/main.ts the
virtual-filesystem plugin is registered first: with a virtual file named
"path" (a platform built-in name), a require-call resolution of "path"
is answered by the virtual-filesystem hook, not by the shim. -/
theorem virtual_store_shadows_builtin_shim :
    nodejsModulesMatch "path" = true ∧
    composedResolve (mkVirtualFiles [("path", "export default 1;")]) []
      "path" "" ImportKind.requireCall = Resolution.virtual "path" ∧
    composedResolve (mkVirtualFiles [("path", "export default 1;")]) []
      "path" "" ImportKind.requireCall ≠ Resolution.nodeShim "path" := by
  decide

/-- C1 amended: in the composed resolver the virtual-filesystem hook is
registered first and its opinion wins; the built-in shim answers a
require-call reference to a platform built-in exactly when the
virtual-filesystem hook has no opinion; when neither answers, resolution
falls to the engine's default import-map-aware resolver. -/
theorem shim_wins_only_on_virtual_miss (store : List (String × String))
    (cwd : List String) (s i : String) (kind : ImportKind) :
    (∀ r, vfsOnResolve store cwd s i = some r →
      composedResolve store cwd s i kind = Resolution.virtual r.path) ∧
    (vfsOnResolve store cwd s i = none → nodejsModulesMatch s = true →
      kind = ImportKind.requireCall →
      composedResolve store cwd s i kind = Resolution.nodeShim s) := by
  constructor
  · intro r hr
    simp [composedResolve, hr]
  · intro hnone hmatch hkind
    simp [composedResolve, hnone, shimOnResolve, hmatch, hkind]

/-- Witness for the C1 amended theorem: an empty store, specifier "path",
a require call. -/
theorem shim_wins_only_on_virtual_miss_witness :
    vfsOnResolve (mkVirtualFiles []) [] "path" "" = none ∧
    nodejsModulesMatch "path" = true ∧
    composedResolve (mkVirtualFiles []) [] "path" "" ImportKind.requireCall =
      Resolution.nodeShim "path" :=
  ⟨by decide, by decide,
    (shim_wins_only_on_virtual_miss (mkVirtualFiles []) [] "path" ""
      ImportKind.requireCall).2 (by decide) (by decide) rfl⟩

/-- C3: when the engine's result carries one or more error diagnostics,
build returns no BuildResult: it raises a single aggregated failure whose
message carries the text of every diagnostic joined with newline
separators (the inner aggregation is additionally wrapped by the
outer catch's constant "Build failed: " tag). -/
theorem diagnostics_aggregated_failure (r : EngineResult) (h : r.errors ≠ []) :
    build (EngineOutcome.completed r) =
      Except.error ("Build failed: " ++ ("Build failed: " ++
        String.intercalate "\n" (r.errors.map Diagnostic.text))) ∧
    ∀ b : BuildResult, build (EngineOutcome.completed r) ≠ Except.ok b := by
  have hlen : r.errors.length > 0 := List.length_pos.mpr h
  constructor
  · simp [build, postEngine, hlen, toErrorMessage]
  · intro b
    simp [build, postEngine, hlen, toErrorMessage]

/-- Witness for C3 with two diagnostics: both texts appear,
newline-joined, in the single failure message. -/
theorem diagnostics_aggregated_failure_witness :
    (([⟨"e1"⟩, ⟨"e2"⟩] : List Diagnostic) ≠ []) ∧
    build (EngineOutcome.completed ⟨[⟨"e1"⟩, ⟨"e2"⟩], []⟩) =
      Except.error ("Build failed: " ++ ("Build failed: " ++
        String.intercalate "\n" ([⟨"e1"⟩, (⟨"e2"⟩ : Diagnostic)].map Diagnostic.text))) :=
  ⟨by decide,
    (diagnostics_aggregated_failure ⟨[⟨"e1"⟩, ⟨"e2"⟩], []⟩ (by decide)).1⟩

/-- C8: every thrown value the build orchestration catches — Error or
not — is normalized before propagating: the failure message is the
constant "Build failed: " tag followed by the original error's message,
and every failure build can ever raise carries that tag prefix. -/
theorem orchestration_errors_normalized :
    (∀ t : Thrown,
      build (EngineOutcome.thrown t) =
        Except.error ("Build failed: " ++ toErrorMessage t)) ∧
    (∀ (o : EngineOutcome) (m : String),
      build o = Except.error m → ∃ s, m = "Build failed: " ++ s) := by
  constructor
  · intro t
    rfl
  · intro o m h
    cases o with
    | thrown t =>
      refine ⟨toErrorMessage t, ?_⟩
      simpa [build] using h.symm
    | completed r =>
      simp only [build] at h
      cases hpe : postEngine r with
      | error t =>
        rw [hpe] at h
        exact ⟨toErrorMessage t, by simpa using h.symm⟩
      | ok b =>
        rw [hpe] at h
        simp at h

/-- Witness for C8: a non-Error thrown value with rendering "boom". -/
theorem orchestration_errors_normalized_witness :
    build (EngineOutcome.thrown (Thrown.val "boom")) =
      Except.error ("Build failed: " ++ toErrorMessage (Thrown.val "boom")) ∧
    ∃ s, "Build failed: boom" = "Build failed: " ++ s :=
  ⟨orchestration_errors_normalized.1 (Thrown.val "boom"),
    orchestration_errors_normalized.2 (EngineOutcome.thrown (Thrown.val "boom"))
      "Build failed: boom" (by rfl)⟩

/-- C5 counterexample: the claim says that whenever the stripped key is
present in the Virtual File Store, the virtual-filesystem resolve hook
returns the virtual result.  With a stored entry whose content is the
empty string the key is present, yet the hook returns no opinion,
because the source tests the content for JS truthiness. -/
theorem present_empty_key_resolves_none :
    (List.lookup "a.ts" (mkVirtualFiles [("a.ts", "")])).isSome = true ∧
    vfsOnResolve (mkVirtualFiles [("a.ts", "")]) [] "./a.ts" "" = none ∧
    vfsOnResolve (mkVirtualFiles [("a.ts", "")]) [] "./a.ts" "" ≠
      some ⟨"a.ts", "virtual"⟩ := by
  decide

/-- C5 amended: on a store hit with non-empty content the
virtual-filesystem resolve hook returns exactly the stripped canonical
path in the "virtual" namespace; when the key is absent — or its stored
content is the empty string — it returns no opinion, deferring to the
later hooks and the engine's default resolver. -/
theorem vfs_resolve_hit_miss_spec (files : List (String × String))
    (cwd : List String) (s i : String) :
    (∀ c, List.lookup (stripAbs (resolveImportPath cwd s i)) (mkVirtualFiles files) =
        some c → c ≠ "" →
      vfsOnResolve (mkVirtualFiles files) cwd s i =
        some ⟨stripAbs (resolveImportPath cwd s i), "virtual"⟩) ∧
    (List.lookup (stripAbs (resolveImportPath cwd s i)) (mkVirtualFiles files) = none →
      vfsOnResolve (mkVirtualFiles files) cwd s i = none) ∧
    (List.lookup (stripAbs (resolveImportPath cwd s i)) (mkVirtualFiles files) =
        some "" →
      vfsOnResolve (mkVirtualFiles files) cwd s i = none) := by
  refine ⟨?_, ?_, ?_⟩
  · intro c hc hne
    simp [vfsOnResolve, hc, hne]
  · intro hnone
    simp [vfsOnResolve, hnone]
  · intro hempty
    simp [vfsOnResolve, hempty]

/-- Witness for the C5 amended theorem: a store holding a.ts with
non-empty content, resolved from the root importer. -/
theorem vfs_resolve_hit_miss_spec_witness :
    List.lookup (stripAbs (resolveImportPath [] "./a.ts" ""))
        (mkVirtualFiles [("a.ts", "x")]) = some "x" ∧
    vfsOnResolve (mkVirtualFiles [("a.ts", "x")]) [] "./a.ts" "" =
      some ⟨stripAbs (resolveImportPath [] "./a.ts" ""), "virtual"⟩ :=
  ⟨by decide,
    (vfs_resolve_hit_miss_spec [("a.ts", "x")] [] "./a.ts" "").1 "x" (by decide)
      (by decide)⟩

/-- C10: a virtual file whose stored content is the empty string is never
served from the Virtual File Store: although its stripped key is present,
the resolve hook tests the content for truthiness, returns no opinion,
and the composed resolver therefore never places such a path in the
virtual namespace. -/
theorem empty_virtual_file_never_served (files : List (String × String))
    (cwd : List String) (s i : String)
    (h : List.lookup (stripAbs (resolveImportPath cwd s i)) (mkVirtualFiles files) =
      some "") :
    (List.lookup (stripAbs (resolveImportPath cwd s i)) (mkVirtualFiles files)).isSome
        = true ∧
    vfsOnResolve (mkVirtualFiles files) cwd s i = none ∧
    ∀ (kind : ImportKind) (p : String),
      composedResolve (mkVirtualFiles files) cwd s i kind ≠ Resolution.virtual p := by
  have hvfs : vfsOnResolve (mkVirtualFiles files) cwd s i = none := by
    simp [vfsOnResolve, h]
  refine ⟨by rw [h]; rfl, hvfs, ?_⟩
  intro kind p
  cases hs : shimOnResolve s kind with
  | none => simp [composedResolve, hvfs, hs]
  | some r => simp [composedResolve, hvfs, hs]

/-- Witness for C10: a request whose only file is a.ts with empty
content. -/
theorem empty_virtual_file_never_served_witness :
    List.lookup (stripAbs (resolveImportPath [] "./a.ts" ""))
        (mkVirtualFiles [("a.ts", "")]) = some "" ∧
    ((List.lookup (stripAbs (resolveImportPath [] "./a.ts" ""))
        (mkVirtualFiles [("a.ts", "")])).isSome = true ∧
     vfsOnResolve (mkVirtualFiles [("a.ts", "")]) [] "./a.ts" "" = none ∧
     ∀ (kind : ImportKind) (p : String),
       composedResolve (mkVirtualFiles [("a.ts", "")]) [] "./a.ts" "" kind ≠
         Resolution.virtual p) :=
  ⟨by decide, empty_virtual_file_never_served [("a.ts", "")] [] "./a.ts" "" (by decide)⟩

theorem nodeSchemeTail_inv (l rest : List Char) (h : nodeSchemeTail l = some rest) :
    l = 'n' :: 'o' :: 'd' :: 'e' :: ':' :: rest := by
  unfold nodeSchemeTail at h
  split at h
  · injection h with h
    subst h
    rfl
  · exact absurd h (by simp)

theorem builtin_strip_fixed : ∀ m ∈ builtinModules, stripNodeScheme m = m := by decide

theorem nodejs_match_shape (s : String) (h : nodejsModulesMatch s = true) :
    builtinModules.contains (stripNodeScheme s) = true ∧
    (s = stripNodeScheme s ∨ s = "node:" ++ stripNodeScheme s) := by
  unfold nodejsModulesMatch at h
  rw [Bool.or_eq_true] at h
  rcases h with hc | hm
  · have hmem : s ∈ builtinModules := by simpa using hc
    have hfix : stripNodeScheme s = s := builtin_strip_fixed s hmem
    rw [hfix]
    exact ⟨hc, Or.inl rfl⟩
  · obtain ⟨d⟩ := s
    cases ht : nodeSchemeTail (String.mk d).toList with
    | none => rw [ht] at hm; simp at hm
    | some rest =>
      rw [ht] at hm
      have hl : d = 'n' :: 'o' :: 'd' :: 'e' :: ':' :: rest := nodeSchemeTail_inv d rest ht
      subst hl
      have hstrip : stripNodeScheme (String.mk ('n' :: 'o' :: 'd' :: 'e' :: ':' :: rest))
          = String.mk rest := rfl
      rw [hstrip]
      exact ⟨hm, Or.inr rfl⟩

/-- C4: for a specifier matching the fixed platform built-in set (with or
without the node: scheme), a require-call resolution is redirected into
the synthetic "node-built-in-modules" namespace, whose load hook then
returns generated interop source importing the built-in under its
node:-scheme ESM form (the remainder after removing the scheme is a bare
built-in name) and re-exporting it as a module-style default, always with
the js loader; a matching specifier of any other kind gets no opinion. -/
theorem builtin_shim_resolve_load_spec (s : String) (kind : ImportKind)
    (h : nodejsModulesMatch s = true) :
    (kind = ImportKind.requireCall →
      shimOnResolve s kind = some ⟨s, "node-built-in-modules"⟩ ∧
      shimOnLoad s = ⟨"import libDefault from 'node:" ++ stripNodeScheme s ++
        "'; module.exports = libDefault;", Loader.js⟩ ∧
      builtinModules.contains (stripNodeScheme s) = true ∧
      (s = stripNodeScheme s ∨ s = "node:" ++ stripNodeScheme s)) ∧
    (kind ≠ ImportKind.requireCall → shimOnResolve s kind = none) := by
  constructor
  · intro hk
    subst hk
    have hshape := nodejs_match_shape s h
    exact ⟨by simp [shimOnResolve, h, REQUIRED_NODE_BUILT_IN_NAMESPACE], rfl,
      hshape.1, hshape.2⟩
  · intro hk
    simp [shimOnResolve, h, hk]

/-- Witness for C4 at the node:-prefixed built-in "node:fs" under a
require call. -/
theorem builtin_shim_resolve_load_spec_witness :
    nodejsModulesMatch "node:fs" = true ∧
    (ImportKind.requireCall = ImportKind.requireCall →
      shimOnResolve "node:fs" ImportKind.requireCall =
        some ⟨"node:fs", "node-built-in-modules"⟩ ∧
      shimOnLoad "node:fs" = ⟨"import libDefault from 'node:" ++
        stripNodeScheme "node:fs" ++ "'; module.exports = libDefault;", Loader.js⟩ ∧
      builtinModules.contains (stripNodeScheme "node:fs") = true ∧
      ("node:fs" = stripNodeScheme "node:fs" ∨
        "node:fs" = "node:" ++ stripNodeScheme "node:fs")) ∧
    (ImportKind.requireCall ≠ ImportKind.requireCall →
      shimOnResolve "node:fs" ImportKind.requireCall = none) :=
  ⟨by decide, builtin_shim_resolve_load_spec "node:fs" ImportKind.requireCall (by decide)⟩

theorem lookup_insertStore_self (st : List (String × String)) (k v : String) :
    List.lookup k (insertStore st k v) = some v := by
  induction st with
  | nil => simp [insertStore, List.lookup]
  | cons hd tl ih =>
    obtain ⟨k0, v0⟩ := hd
    by_cases hk : k0 = k
    · subst hk
      simp [insertStore, List.lookup]
    · have hbeq : (k0 == k) = false := by simp [hk]
      have hbeq2 : (k == k0) = false := by
        simp only [beq_eq_false_iff_ne, ne_eq]
        exact fun hx => hk hx.symm
      simp [insertStore, hbeq, List.lookup, hbeq2, ih]

theorem lookup_insertStore_ne (st : List (String × String)) (k v k2 : String)
    (h : k2 ≠ k) : List.lookup k2 (insertStore st k v) = List.lookup k2 st := by
  have hbeqk : (k2 == k) = false := by simp [h]
  induction st with
  | nil => simp [insertStore, List.lookup, hbeqk]
  | cons hd tl ih =>
    obtain ⟨k0, v0⟩ := hd
    by_cases hk : k0 = k
    · subst hk
      simp [insertStore, List.lookup, hbeqk]
    · have hbeq : (k0 == k) = false := by simp [hk]
      by_cases h2 : k2 = k0
      · subst h2
        simp [insertStore, hbeq, List.lookup]
      · have hbeq2 : (k2 == k0) = false := by simp [h2]
        simp [insertStore, hbeq, List.lookup, hbeq2, ih]

theorem mem_keys_insertStore (st : List (String × String)) (k v x : String) :
    x ∈ (insertStore st k v).map Prod.fst → x ∈ st.map Prod.fst ∨ x = k := by
  induction st with
  | nil =>
    intro h
    simp [insertStore] at h
    exact Or.inr h
  | cons hd tl ih =>
    obtain ⟨k0, v0⟩ := hd
    intro h
    by_cases hk : k0 = k
    · subst hk
      have hbeq : (k0 == k0) = true := by simp
      simp only [insertStore, hbeq, if_true, List.map_cons, List.mem_cons] at h ⊢
      rcases h with h | h
      · exact Or.inr h
      · exact Or.inl (Or.inr h)
    · have hbeq : (k0 == k) = false := by simp [hk]
      simp only [insertStore, hbeq, Bool.false_eq_true, if_false, List.map_cons,
        List.mem_cons] at h ⊢
      rcases h with h | h
      · exact Or.inl (Or.inl h)
      · rcases ih h with h2 | h2
        · exact Or.inl (Or.inr h2)
        · exact Or.inr h2

theorem keys_nodup_insertStore (st : List (String × String)) (k v : String) :
    (st.map Prod.fst).Nodup → ((insertStore st k v).map Prod.fst).Nodup := by
  induction st with
  | nil => intro _; simp [insertStore]
  | cons hd tl ih =>
    obtain ⟨k0, v0⟩ := hd
    intro h
    simp only [List.map_cons, List.nodup_cons] at h
    by_cases hk : k0 = k
    · subst hk
      have hbeq : (k0 == k0) = true := by simp
      simp only [insertStore, hbeq, if_true, List.map_cons, List.nodup_cons]
      exact h
    · have hbeq : (k0 == k) = false := by simp [hk]
      simp only [insertStore, hbeq, Bool.false_eq_true, if_false, List.map_cons,
        List.nodup_cons]
      refine ⟨fun hmem => ?_, ih h.2⟩
      rcases mem_keys_insertStore tl k v k0 hmem with h2 | h2
      · exact h.1 h2
      · exact hk h2

theorem foldl_insert_nodup (files : List (String × String)) :
    ∀ acc : List (String × String), (acc.map Prod.fst).Nodup →
    ((files.foldl (fun acc kv => insertStore acc (stripAbs kv.1) kv.2) acc).map
      Prod.fst).Nodup := by
  induction files with
  | nil => intro acc h; simpa using h
  | cons hd tl ih =>
    intro acc h
    simp only [List.foldl_cons]
    exact ih _ (keys_nodup_insertStore acc (stripAbs hd.1) hd.2 h)

theorem mkVirtualFiles_keys_nodup (files : List (String × String)) :
    ((mkVirtualFiles files).map Prod.fst).Nodup :=
  foldl_insert_nodup files [] (by simp)

theorem lookup_foldl_insert_preserve (l : List (String × String)) :
    ∀ (S : List (String × String)) (K : String),
    (∀ kv ∈ l, stripAbs kv.1 ≠ K) →
    List.lookup K (l.foldl (fun acc kv => insertStore acc (stripAbs kv.1) kv.2) S) =
      List.lookup K S := by
  induction l with
  | nil => intro S K _; rfl
  | cons hd tl ih =>
    intro S K h
    simp only [List.foldl_cons]
    rw [ih _ K (fun kv hkv => h kv (List.mem_cons_of_mem hd hkv))]
    exact lookup_insertStore_ne S (stripAbs hd.1) hd.2 K
      (fun hx => h hd (List.mem_cons_self hd tl) hx.symm)

/-- C6: when two distinct input keys of the request's files map strip to
the same store key, the content stored under that key is the one of the
later-enumerated entry, and the finished store holds exactly one entry
per stripped key. -/
theorem virtual_store_last_write_wins (l1 l2 l3 : List (String × String))
    (k1 v1 k2 v2 : String) (_hne : k1 ≠ k2) (_hstrip : stripAbs k1 = stripAbs k2)
    (h3 : ∀ kv ∈ l3, stripAbs kv.1 ≠ stripAbs k2) :
    List.lookup (stripAbs k2)
      (mkVirtualFiles (l1 ++ (k1, v1) :: l2 ++ (k2, v2) :: l3)) = some v2 ∧
    ((mkVirtualFiles (l1 ++ (k1, v1) :: l2 ++ (k2, v2) :: l3)).map Prod.fst).Nodup := by
  constructor
  · unfold mkVirtualFiles
    rw [List.foldl_append, List.foldl_cons, List.foldl_append, List.foldl_cons]
    rw [lookup_foldl_insert_preserve l3 _ _ h3]
    exact lookup_insertStore_self _ (stripAbs k2) v2
  · exact mkVirtualFiles_keys_nodup _

/-- Witness for C6: the keys "./a.ts" and "/a.ts" collide on the stripped
key "a.ts"; the later content "y" wins and the store keys stay unique. -/
theorem virtual_store_last_write_wins_witness :
    ("./a.ts" : String) ≠ "/a.ts" ∧ stripAbs "./a.ts" = stripAbs "/a.ts" ∧
    List.lookup (stripAbs "/a.ts")
      (mkVirtualFiles ([] ++ ("./a.ts", "x") :: [] ++ ("/a.ts", "y") :: [])) = some "y" ∧
    ((mkVirtualFiles ([] ++ ("./a.ts", "x") :: [] ++ ("/a.ts", "y") :: [])).map
      Prod.fst).Nodup :=
  ⟨by decide, by decide,
    (virtual_store_last_write_wins [] [] [] "./a.ts" "x" "/a.ts" "y" (by decide)
      (by decide) (by intro kv hkv; simp at hkv)).1,
    (virtual_store_last_write_wins [] [] [] "./a.ts" "x" "/a.ts" "y" (by decide)
      (by decide) (by intro kv hkv; simp at hkv)).2⟩

/-- C7 counterexample: the claim says every request whose files map has no
key canonicalizing to the (defaulted) entrypoint must fail with an
entrypoint-related message.  With entrypoint ".npmrc" and files lacking
any such key, the entrypoint existence check of src/bundler.ts passes —
the bundler has just written a default .npmrc into the build directory —
so no entrypoint-related failure is raised. -/
theorem npmrc_entrypoint_passes_check :
    (([("a.ts", "x")] : List (String × String)).map (fun kv => normRel kv.1)).contains
      (normRel (defaultEntrypoint (some ".npmrc"))) = false ∧
    checkEntrypoint [] [("a.ts", "x")] (some ".npmrc") = Except.ok () :=
  ⟨by decide, rfl⟩

/-- C7 amended: the entrypoint defaults to "index.ts" when absent, and
whenever the canonicalized entrypoint stays within the build directory
(it does not traverse above it: its level-up count is zero) and no
written path — the stripped-and-joined file keys plus the always-written
".npmrc" — has it as a segment prefix, the build fails with the
entrypoint-not-found message; entrypoints that escape the build directory
can instead hit its pre-created ancestors or other pre-existing host
locations (all of which lie at least one level above) and pass the
check. -/
theorem missing_entrypoint_fails (hostPaths : List (Nat × List String))
    (files : List (String × String)) (ep : Option String)
    (hhost : ∀ p ∈ hostPaths, 1 ≤ p.1)
    (hup : (normRel (defaultEntrypoint ep)).1 = 0)
    (h : ∀ k ∈ writtenPaths files,
      ((normRel (defaultEntrypoint ep)).1 == k.1 &&
        (normRel (defaultEntrypoint ep)).2.isPrefixOf k.2) = false) :
    checkEntrypoint hostPaths files ep =
      Except.error ("Entrypoint file '" ++ defaultEntrypoint ep ++
        "' not found in provided files") ∧
    defaultEntrypoint none = "index.ts" := by
  constructor
  · have hA : (writtenPaths files).any
        (fun k => (normRel (defaultEntrypoint ep)).1 == k.1 &&
          (normRel (defaultEntrypoint ep)).2.isPrefixOf k.2) = false := by
      rw [List.any_eq_false]
      intro k hk
      simp [h k hk]
    have hC : hostPaths.contains (normRel (defaultEntrypoint ep)) = false := by
      cases hcc : hostPaths.contains (normRel (defaultEntrypoint ep)) with
      | false => rfl
      | true =>
        have hmem : normRel (defaultEntrypoint ep) ∈ hostPaths := by
          simpa using hcc
        have hge := hhost _ hmem
        rw [hup] at hge
        omega
    have hhit : entryStatHit hostPaths files (defaultEntrypoint ep) = false := by
      unfold entryStatHit
      rw [hA, hC, hup]
      simp
    unfold checkEntrypoint
    simp [hhit]
  · rfl

/-- Witness for C7 at files lacking the requested entrypoint "b.ts",
with no extra pre-existing host locations. -/
theorem missing_entrypoint_fails_witness :
    (∀ p ∈ ([] : List (Nat × List String)), 1 ≤ p.1) ∧
    (normRel (defaultEntrypoint (some "b.ts"))).1 = 0 ∧
    (∀ k ∈ writtenPaths [("a.ts", "x")],
      ((normRel (defaultEntrypoint (some "b.ts"))).1 == k.1 &&
        (normRel (defaultEntrypoint (some "b.ts"))).2.isPrefixOf k.2) = false) ∧
    checkEntrypoint [] [("a.ts", "x")] (some "b.ts") =
      Except.error ("Entrypoint file '" ++ defaultEntrypoint (some "b.ts") ++
        "' not found in provided files") :=
  ⟨by simp, by decide, by decide,
    (missing_entrypoint_fails [] [("a.ts", "x")] (some "b.ts")
      (by intro p hp; simp at hp) (by decide) (by decide)).1⟩

theorem b64val_b64char : ∀ n, n < 64 → b64val (b64char n) = n := by decide

theorem b64char_ne_pad : ∀ n, n < 64 → ¬(b64char n = '=') := by decide

theorem b64char_mem_small : ∀ n, n < 64 → b64char n ∈ base64Alphabet := by decide

theorem b64char_big (n : Nat) (h : 64 ≤ n) : b64char n = 'A' := by
  unfold b64char
  apply List.getD_eq_default
  have hlen : base64Alphabet.length = 64 := by decide
  omega

theorem b64char_mem (n : Nat) : b64char n ∈ base64Alphabet := by
  rcases Nat.lt_or_ge n 64 with h | h
  · exact b64char_mem_small n h
  · rw [b64char_big n h]
    decide

theorem b64_roundtrip : ∀ bs : List Nat, (∀ x ∈ bs, x < 256) →
    b64ToBytes (bytesToB64 bs) = bs := by
  refine chunkRec (fun l => (∀ x ∈ l, x < 256) → b64ToBytes (bytesToB64 l) = l)
    ?_ ?_ ?_ ?_
  · intro _
    rfl
  · intro a h
    have ha : a < 256 := h a (by simp)
    simp only [bytesToB64, b64ToBytes, if_true]
    rw [b64val_b64char _ (by omega), b64val_b64char _ (by omega)]
    simp only [List.cons.injEq, and_true]
    omega
  · intro a b h
    have ha : a < 256 := h a (by simp)
    have hb : b < 256 := h b (by simp)
    simp only [bytesToB64, b64ToBytes, if_true]
    rw [if_neg (b64char_ne_pad _ (by omega))]
    rw [b64val_b64char _ (by omega), b64val_b64char _ (by omega),
      b64val_b64char _ (by omega)]
    simp only [List.cons.injEq, and_true]
    constructor
    · omega
    · omega
  · intro a b c l ih h
    have ha : a < 256 := h a (by simp)
    have hb : b < 256 := h b (by simp)
    have hc : c < 256 := h c (by simp)
    have hl : ∀ x ∈ l, x < 256 := fun x hx => h x (by simp [hx])
    simp only [bytesToB64, b64ToBytes, if_true]
    rw [if_neg (b64char_ne_pad _ (by omega)), if_neg (b64char_ne_pad _ (by omega))]
    rw [b64val_b64char _ (by omega), b64val_b64char _ (by omega),
      b64val_b64char _ (by omega), b64val_b64char _ (by omega)]
    simp only [List.cons.injEq]
    refine ⟨by omega, by omega, by omega, ih hl⟩

theorem bytesToB64_chars : ∀ bs : List Nat, ∀ c ∈ bytesToB64 bs,
    c ∈ base64Alphabet ∨ c = '=' := by
  refine chunkRec (fun l => ∀ c ∈ bytesToB64 l, c ∈ base64Alphabet ∨ c = '=') ?_ ?_ ?_ ?_
  · intro c hc
    simp [bytesToB64] at hc
  · intro a c hc
    simp only [bytesToB64, List.mem_cons, List.not_mem_nil, or_false] at hc
    rcases hc with h | h | h | h
    all_goals first
      | exact Or.inl (h ▸ b64char_mem _)
      | exact Or.inr h
  · intro a b c hc
    simp only [bytesToB64, List.mem_cons, List.not_mem_nil, or_false] at hc
    rcases hc with h | h | h | h
    all_goals first
      | exact Or.inl (h ▸ b64char_mem _)
      | exact Or.inr h
  · intro a b c l ih d hd
    simp only [bytesToB64, List.mem_cons] at hd
    rcases hd with h | h | h | h | h
    · exact Or.inl (h ▸ b64char_mem _)
    · exact Or.inl (h ▸ b64char_mem _)
    · exact Or.inl (h ▸ b64char_mem _)
    · exact Or.inl (h ▸ b64char_mem _)
    · exact ih d h

theorem bytesToB64_len : ∀ bs : List Nat, (bytesToB64 bs).length % 4 = 0 := by
  refine chunkRec (fun l => (bytesToB64 l).length % 4 = 0) ?_ ?_ ?_ ?_
  · rfl
  · intro a
    simp only [bytesToB64, List.length_cons, List.length_nil]
  · intro a b
    simp only [bytesToB64, List.length_cons, List.length_nil]
  · intro a b c l ih
    simp only [bytesToB64, List.length_cons]
    omega

theorem btoa_output_valid (bs : List Nat) :
    isValidB64 (String.mk (bytesToB64 bs)) = true := by
  unfold isValidB64
  rw [Bool.and_eq_true]
  constructor
  · rw [List.all_eq_true]
    intro c hc
    have hmem : c ∈ bytesToB64 bs := hc
    rcases bytesToB64_chars bs c hmem with h | h
    · simp [h]
    · simp [h]
  · have hlen := bytesToB64_len bs
    show ((bytesToB64 bs).length % 4 == 0) = true
    simp [hlen]

/-- C9: every successful build's base64 field is the base64 encoding of
the first output artifact's text: the output is syntactically valid
base64, decoding it recovers exactly the artifact's code units, and
re-encoding the decoded bytes yields the identical string. -/
theorem base64_roundtrip_on_success (o : EngineOutcome) (res : BuildResult)
    (h : build o = Except.ok res) :
    ∃ (r : EngineResult) (f : OutputFile),
      o = EngineOutcome.completed r ∧
      r.outputFiles.head? = some f ∧
      btoa f.text = some res.base64 ∧
      isValidB64 res.base64 = true ∧
      b64ToBytes res.base64.toList = f.text.toList.map Char.toNat ∧
      String.mk (bytesToB64 (b64ToBytes res.base64.toList)) = res.base64 := by
  cases o with
  | thrown t => simp [build] at h
  | completed r =>
    obtain ⟨errs, outs⟩ := r
    obtain ⟨resb⟩ := res
    cases errs with
    | cons e el => simp [build, postEngine] at h
    | nil =>
      cases outs with
      | nil => simp [build, postEngine] at h
      | cons f rest =>
        cases hbt : btoa f.text with
        | none => simp [build, postEngine, hbt] at h
        | some enc =>
          simp only [build, postEngine, List.length_nil, gt_iff_lt, Nat.lt_irrefl,
            if_false, hbt, Except.ok.injEq] at h
          have hres : resb = enc := by
            cases h
            rfl
          subst hres
          have hbt0 : btoa f.text = some resb := hbt
          unfold btoa at hbt
          by_cases hg : f.text.toList.all (fun c => c.toNat < 256) = true
          · rw [if_pos hg] at hbt
            have hencdef : String.mk (bytesToB64 (f.text.toList.map Char.toNat)) =
                resb := by
              simpa using hbt
            have hbounds : ∀ x ∈ f.text.toList.map Char.toNat, x < 256 := by
              intro x hx
              rcases List.mem_map.mp hx with ⟨c, hcm, hcx⟩
              have hcb := List.all_eq_true.mp hg c hcm
              simp at hcb
              omega
            have hrt : b64ToBytes (bytesToB64 (f.text.toList.map Char.toNat)) =
                f.text.toList.map Char.toNat := b64_roundtrip _ hbounds
            refine ⟨⟨[], f :: rest⟩, f, rfl, rfl, hbt0, ?_, ?_, ?_⟩
            · show isValidB64 resb = true
              rw [← hencdef]
              exact btoa_output_valid _
            · show b64ToBytes resb.toList = f.text.toList.map Char.toNat
              rw [← hencdef]
              exact hrt
            · show String.mk (bytesToB64 (b64ToBytes resb.toList)) = resb
              rw [← hencdef]
              show String.mk (bytesToB64 (b64ToBytes (bytesToB64
                (f.text.toList.map Char.toNat)))) =
                String.mk (bytesToB64 (f.text.toList.map Char.toNat))
              rw [hrt]
          · rw [if_neg hg] at hbt
            simp at hbt

/-- Witness for C9: a build of the single artifact "hi", whose encoding
is "aGk=". -/
theorem base64_roundtrip_on_success_witness :
    build (EngineOutcome.completed ⟨[], [⟨"hi"⟩]⟩) = Except.ok ⟨"aGk="⟩ ∧
    (∃ (r : EngineResult) (f : OutputFile),
      EngineOutcome.completed (⟨[], [⟨"hi"⟩]⟩ : EngineResult) =
        EngineOutcome.completed r ∧
      r.outputFiles.head? = some f ∧
      btoa f.text = some (BuildResult.mk "aGk=").base64 ∧
      isValidB64 (BuildResult.mk "aGk=").base64 = true ∧
      b64ToBytes (BuildResult.mk "aGk=").base64.toList = f.text.toList.map Char.toNat ∧
      String.mk (bytesToB64 (b64ToBytes (BuildResult.mk "aGk=").base64.toList)) =
        (BuildResult.mk "aGk=").base64) :=
  ⟨rfl, base64_roundtrip_on_success (EngineOutcome.completed ⟨[], [⟨"hi"⟩]⟩)
    (BuildResult.mk "aGk=") rfl⟩

